import Mathlib

/-!
# Verification of the strava-activity-map rendering and export core

This file is a shallow embedding of the time-based route rendering and
export pipeline of the `strava-activity-map` repository
(`src/animation/AnimationController.js`, `src/export/GifExporter.js`),
together with theorems settling the specification claims about it.

Modelling conventions:
* JavaScript numbers that hold exact values (epoch milliseconds, opacities,
  weights, rational constants) are modelled as `ℚ`; JavaScript bitwise
  operations (used only by the polyline decoder) operate on 32-bit two's
  complement integers and are modelled explicitly on `ℤ` via reduction
  modulo `2^32`.
* `Date` values are modelled by their epoch-millisecond value (`ℚ`);
  `null` date fields are `Option ℚ` with `none` for `null`.
* JavaScript `Map`s keyed by activity id are modelled as association lists
  in insertion order (`Map.set` updates in place or appends).
* `undefined`/absent strings are `Option String` with `none`.
-/

namespace StravaMap

/-! ## JavaScript 32-bit integer semantics

The polyline decoder uses `|`, `&`, `<<`, `>>` and `~`, which in JavaScript
convert their operands to 32-bit two's complement integers.  We model the
signed 32-bit interpretation on `ℤ`. -/

/-- Unsigned 32-bit value of an integer (JavaScript `ToUint32`). -/
def toUint32 (n : ℤ) : ℕ := (n % 4294967296).toNat

/-- Signed 32-bit value of an integer (JavaScript `ToInt32`). -/
def toInt32 (n : ℤ) : ℤ :=
  let u := n % 4294967296
  if u < 2147483648 then u else u - 4294967296

/-- JavaScript bitwise or on 32-bit integers. -/
def jsOr (a b : ℤ) : ℤ := toInt32 (Nat.lor (toUint32 a) (toUint32 b) : ℕ)

/-- JavaScript bitwise and on 32-bit integers. -/
def jsAnd (a b : ℤ) : ℤ := toInt32 (Nat.land (toUint32 a) (toUint32 b) : ℕ)

/-- JavaScript left shift `a << s` (shift count taken mod 32). -/
def jsShl (a : ℤ) (s : ℕ) : ℤ := toInt32 ((toUint32 a * 2 ^ (s % 32) : ℕ) : ℤ)

/-- JavaScript arithmetic right shift `a >> s` (shift count taken mod 32). -/
def jsShrA (a : ℤ) (s : ℕ) : ℤ := Int.fdiv (toInt32 a) (2 ^ (s % 32))

/-- JavaScript bitwise not `~a` on 32-bit integers. -/
def jsNot (a : ℤ) : ℤ := -(toInt32 a) - 1

/-! ## Polyline codec

Faithful embedding of the `while`/`do-while` decoding loops shared by
`AnimationController._decodePolyline` and `GifExporter._decodePolyline`.
Characters are modelled by their UTF-16 code unit (`Char.toNat`; polyline
alphabets are ASCII so this is exact).  Reading past the end of the string
(`charCodeAt` returning `NaN`) makes the chunk contribute `0` and ends the
inner loop, which the `[]` case models. -/

/-- One varint read: the inner `do { ... } while (byte >= 0x20)` loop.
Returns the accumulated 32-bit result and the remaining characters. -/
def readVarint : List ℕ → ℕ → ℤ → ℤ × List ℕ
  | [], _, acc => (jsOr acc 0, [])
  | c :: rest, shift, acc =>
    let byte : ℤ := (c : ℤ) - 63
    let acc2 := jsOr acc (jsShl (jsAnd byte 31) shift)
    if 32 ≤ byte then readVarint rest (shift + 5) acc2 else (acc2, rest)

theorem readVarint_length_le (cs : List ℕ) (shift : ℕ) (acc : ℤ) :
    (readVarint cs shift acc).2.length ≤ cs.length := by
  induction cs generalizing shift acc with
  | nil => simp [readVarint]
  | cons c rest ih =>
    simp only [readVarint]
    split
    · exact le_trans (ih _ _) (Nat.le_succ _)
    · simp

theorem readVarint_cons_length_le (c : ℕ) (cs : List ℕ) (shift : ℕ) (acc : ℤ) :
    (readVarint (c :: cs) shift acc).2.length ≤ cs.length := by
  simp only [readVarint]
  split
  · exact readVarint_length_le _ _ _
  · simp

/-- Zig-zag step `(result & 1) ? ~(result >> 1) : (result >> 1)`. -/
def zigzagDelta (result : ℤ) : ℤ :=
  if jsAnd result 1 ≠ 0 then jsNot (jsShrA result 1) else jsShrA result 1

/-- The outer `while (index < encoded.length)` loop of the decoder,
carrying the running latitude and longitude (exact integers in JS).
Structural recursion on a fuel argument keeps the definition
kernel-computable; every outer iteration consumes at least one character,
so any fuel of at least the list length yields the loop's behaviour
(`decodeLoopF_fuel_irrel`). -/
def decodeLoopF : ℕ → List ℕ → ℤ → ℤ → List (ℚ × ℚ)
  | _, [], _, _ => []
  | 0, _ :: _, _, _ => []
  | fuel + 1, c :: rest, lat, lng =>
    let p1 := readVarint (c :: rest) 0 0
    let lat2 := lat + zigzagDelta p1.1
    let p2 := readVarint p1.2 0 0
    let lng2 := lng + zigzagDelta p2.1
    ((lat2 : ℚ) / 100000, (lng2 : ℚ) / 100000) :: decodeLoopF fuel p2.2 lat2 lng2

theorem decodeLoopF_fuel_irrel (f1 f2 : ℕ) (cs : List ℕ) (lat lng : ℤ)
    (h1 : cs.length ≤ f1) (h2 : cs.length ≤ f2) :
    decodeLoopF f1 cs lat lng = decodeLoopF f2 cs lat lng := by
  induction f1 generalizing f2 cs lat lng with
  | zero =>
    cases cs with
    | nil => cases f2 <;> rfl
    | cons c rest => simp at h1
  | succ f1 ih =>
    cases cs with
    | nil => cases f2 <;> rfl
    | cons c rest =>
      cases f2 with
      | zero => simp at h2
      | succ f2 =>
        simp only [decodeLoopF]
        have hlen : (readVarint (readVarint (c :: rest) 0 0).2 0 0).2.length ≤ rest.length :=
          le_trans (readVarint_length_le _ _ _) (readVarint_cons_length_le c rest 0 0)
        have hr1 : rest.length ≤ f1 := by simpa using h1
        have hr2 : rest.length ≤ f2 := by simpa using h2
        rw [ih f2 _ _ _ (le_trans hlen hr1) (le_trans hlen hr2)]

/-- The decoding loop started with exactly enough fuel for its input. -/
def decodeLoop (cs : List ℕ) (lat lng : ℤ) : List (ℚ × ℚ) :=
  decodeLoopF cs.length cs lat lng

/-- Code units of a string (UTF-16 `charCodeAt`; exact for the ASCII
polyline alphabet). -/
def codeUnits (s : String) : List ℕ := s.toList.map Char.toNat

/-- Embedding of `AnimationController._decodePolyline`: guards falsy input
(`undefined` or the empty string) and returns the empty sequence for it. -/
def decodePolylineAC : Option String → List (ℚ × ℚ)
  | none => []
  | some s => if s = "" then [] else decodeLoop (codeUnits s) 0 0

/-- Body of `GifExporter._decodePolyline` on an actual string (no guard in
the source; the empty string makes the loop run zero times). -/
def decodePolylineGifStr (s : String) : List (ℚ × ℚ) := decodeLoop (codeUnits s) 0 0

/-- Embedding of `GifExporter._decodePolyline` including JavaScript's behaviour on an
`undefined` argument: accessing `encoded.length` throws a `TypeError`. -/
def decodePolylineGif : Option String → Except String (List (ℚ × ℚ))
  | none => Except.error "TypeError: Cannot read properties of undefined (reading length)"
  | some s => Except.ok (decodePolylineGifStr s)

/-! ## Data model -/

/-- An activity record.  `start_date` is the epoch-millisecond value of the
ISO timestamp; `summary_polyline` models `activity.map?.summary_polyline`
(`none` when the `map` object or the polyline is absent). -/
structure Activity where
  id : ℕ
  type : String
  start_date : ℚ
  distance : ℚ
  summary_polyline : Option String
deriving DecidableEq

/-- Default `getColorsFn` color table of `AnimationController`
(24-bit RGB values for the hex color strings). -/
def defaultColors (t : String) : ℕ :=
  if t = "Run" then 0xfc4c02
  else if t = "Ride" then 0x0066cc
  else if t = "Swim" then 0x00cccc
  else if t = "Walk" then 0x66cc00
  else if t = "Hike" then 0x996600
  else 0x888888

/-- Color table of `GifExporter._getActivityColor` (adds `VirtualRide`). -/
def gifActivityColor (t : String) : ℕ :=
  if t = "Run" then 0xfc4c02
  else if t = "Ride" then 0x0066cc
  else if t = "Swim" then 0x00cccc
  else if t = "Walk" then 0x66cc00
  else if t = "Hike" then 0x996600
  else if t = "VirtualRide" then 0x8800cc
  else 0x888888

/-- Embedding of `AnimationController._darkenColor` on the 24-bit RGB value: each
channel is scaled by `1 - percent` (floored at 0) and rounded
(JavaScript `Math.round(x) = ⌊x + 1/2⌋`, which is Mathlib's `round`). -/
def darkenColor (num : ℕ) (percent : ℚ) : ℕ :=
  let r : ℚ := max 0 ((num / 65536 : ℕ) * (1 - percent))
  let g : ℚ := max 0 (((num / 256) % 256 : ℕ) * (1 - percent))
  let b : ℚ := max 0 ((num % 256 : ℕ) * (1 - percent))
  (round r).toNat * 65536 + (round g).toNat * 256 + (round b).toNat

/-! ## Spatial overlap index -/

/-- Grid resolution `0.0005` (≈ 50 m cells). -/
def gridResolution : ℚ := 1 / 2000

/-- The 90-day fade window in milliseconds. -/
def fadeWindowMs : ℚ := 7776000000

/-- Embedding of `AnimationController._getCellKey`: latitude and longitude each rounded
to the grid resolution.  The source builds the string
`"(k·res).toFixed(4),(l·res).toFixed(4)"`; distinct integer pairs yield
distinct strings, so the key is modelled by the integer pair itself. -/
def getCellKey (lat lng : ℚ) : ℤ × ℤ :=
  (round (lat / gridResolution), round (lng / gridResolution))

/-- Distinct cells visited by an activity's route (the per-activity
`visitedCells` set of `_buildOverlapGrid`, with the falsy-polyline guard). -/
def cellsOfActivity (a : Activity) : List (ℤ × ℤ) :=
  match a.summary_polyline with
  | none => []
  | some p =>
    if p = "" then []
    else ((decodeLoop (codeUnits p) 0 0).map (fun q => getCellKey q.1 q.2)).dedup

/-- Embedding of `AnimationController._buildOverlapGrid` as the resulting map contents:
every visited cell paired with the number of activities whose route visits
it (each activity counted at most once per cell). -/
def buildOverlapGrid (activities : List Activity) : List ((ℤ × ℤ) × ℕ) :=
  let cells := (activities.map cellsOfActivity).flatten.dedup
  cells.map (fun c => (c, (activities.filter (fun a => c ∈ cellsOfActivity a)).length))

/-- Value of `Math.max(...this.overlapGrid.values(), 1)`. -/
def maxOverlapOf (activities : List Activity) : ℕ :=
  ((buildOverlapGrid activities).map (fun kv => kv.2)).foldr max 1

/-- Lookup in the overlap grid; `0` encodes an absent cell (stored counts
are always at least 1). -/
def gridGet (grid : List ((ℤ × ℤ) × ℕ)) (c : ℤ × ℤ) : ℕ :=
  ((grid.find? (fun kv => kv.1 = c)).map (fun kv => kv.2)).getD 0

/-- Distinct cells visited by a coordinate list (the `visitedCells` set of
`_getActivityOverlapScore`). -/
def visitedCellsOf (coords : List (ℚ × ℚ)) : List (ℤ × ℤ) :=
  (coords.map (fun q => getCellKey q.1 q.2)).dedup

/-- Total overlap of a route: sum over its distinct cells of the grid
count, with `grid.get(cellKey) || 1` giving absent cells weight 1. -/
def totalOverlapOf (grid : List ((ℤ × ℤ) × ℕ)) (coords : List (ℚ × ℚ)) : ℕ :=
  ((visitedCellsOf coords).map (fun c =>
    let g := gridGet grid c
    if g = 0 then 1 else g)).sum

/-- Average cell count across the route's distinct visited cells
(`totalOverlap / visitedCells.size`). -/
def avgCellCount (grid : List ((ℤ × ℤ) × ℕ)) (coords : List (ℚ × ℚ)) : ℚ :=
  (totalOverlapOf grid coords : ℚ) / ((visitedCellsOf coords).length : ℚ)

/-- Embedding of `AnimationController._getActivityOverlapScore`. -/
def overlapScore (grid : List ((ℤ × ℤ) × ℕ)) (maxOverlap : ℕ)
    (coords : List (ℚ × ℚ)) : ℚ :=
  if coords = [] then 0
  else
    let avgOverlap := avgCellCount grid coords
    if maxOverlap ≤ 1 then 0
    else min 1 ((avgOverlap - 1) / ((maxOverlap : ℚ) - 1))

/-! ## Style model -/

/-- Embedding of `AnimationController._getRecencyScore`. -/
def getRecencyScore (activityDate currentTime : ℚ) : ℚ :=
  let age := currentTime - activityDate
  if age ≤ 0 then 1
  else if fadeWindowMs ≤ age then 0
  else 1 - age / fadeWindowMs

/-- Computed style triple. -/
structure Style where
  opacity : ℚ
  weight : ℚ
  recencyScore : ℚ
deriving DecidableEq

/-- Embedding of `AnimationController._calculateStyle`, with the opacity ranges derived
from the constructor's `baseOpacity` exactly as in the source. -/
def calculateStyle (baseOpacity : ℚ) (grid : List ((ℤ × ℤ) × ℕ)) (maxOverlap : ℕ)
    (activityDate : ℚ) (coords : List (ℚ × ℚ)) (currentTime : ℚ) : Style :=
  let recencyScore := getRecencyScore activityDate currentTime
  let ovScore := overlapScore grid maxOverlap coords
  let recMin : ℚ := 0.15 * baseOpacity / 0.5
  let recMax : ℚ := 1.0 * baseOpacity / 0.5
  let ovMin : ℚ := 0.15 * baseOpacity / 0.5
  let ovMax : ℚ := 0.75 * baseOpacity / 0.5
  let recencyOpacity := recMin + recencyScore * (recMax - recMin)
  let overlapOpacity := ovMin + ovScore * (ovMax - ovMin)
  let opacity := min 1 (recencyOpacity * 0.7 + overlapOpacity * 0.3)
  let weight := 1 + recencyScore * 1.5
  { opacity := opacity, weight := weight, recencyScore := recencyScore }

/-! ## Animation controller state -/

/-- One entry of the `activePolylines` map: the decoded coordinates, the
paint parameters currently set on the rendered polyline, the drawing
progress bookkeeping, and the stored activity record. -/
structure PolyEntry where
  coords : List (ℚ × ℚ)
  opacity : ℚ
  weight : ℚ
  color : ℕ
  progress : ℚ
  drawing : Bool
  activity : Activity
deriving DecidableEq

/-- State of the `AnimationController`.  `overlapGrid`/`maxOverlap` hold the
contents of the grid map and the `maxOverlap` field (`none` while the
field is still `undefined`, i.e. before `_buildOverlapGrid` ran). -/
structure ControllerState where
  activities : List Activity
  sortedActivities : List Activity
  baseOpacity : ℚ
  isPlaying : Bool
  speed : ℚ
  currentTime : Option ℚ
  startTime : Option ℚ
  endTime : Option ℚ
  activePolylines : List (ℕ × PolyEntry)
  overlapGrid : List ((ℤ × ℤ) × ℕ)
  maxOverlap : Option ℕ
deriving DecidableEq

/-- Membership test of the `activePolylines` map (`Map.has`). -/
def mapHas (m : List (ℕ × PolyEntry)) (k : ℕ) : Bool :=
  m.any (fun kv => kv.1 = k)

/-- Lookup in the `activePolylines` map (`Map.get`). -/
def mapLookup (m : List (ℕ × PolyEntry)) (k : ℕ) : Option PolyEntry :=
  (m.find? (fun kv => kv.1 = k)).map (fun kv => kv.2)

/-- Semantics of `Map.set`: update in place when the key exists, append otherwise. -/
def mapSet (m : List (ℕ × PolyEntry)) (k : ℕ) (v : PolyEntry) : List (ℕ × PolyEntry) :=
  if mapHas m k then m.map (fun kv => if kv.1 = k then (k, v) else kv)
  else m ++ [(k, v)]

/-- The `activePolylines` entry built for an activity at virtual time `t`
(common to `_addActivity` and `_renderActivitiesUpToTime`: style computed
at `t`, base color darkened by `recencyScore * 0.3`, fully drawn). -/
def mkEntry (baseOpacity : ℚ) (grid : List ((ℤ × ℤ) × ℕ)) (maxOverlap : ℕ)
    (t : ℚ) (a : Activity) (coords : List (ℚ × ℚ)) : PolyEntry :=
  let style := calculateStyle baseOpacity grid maxOverlap a.start_date coords t
  { coords := coords
    opacity := style.opacity
    weight := style.weight
    color := darkenColor (defaultColors a.type) (style.recencyScore * 0.3)
    progress := 1
    drawing := false
    activity := a }

/-- Decoded coordinates of an activity as the controller sees them
(falsy-polyline guard plus `_decodePolyline`). -/
def activityCoords (a : Activity) : List (ℚ × ℚ) :=
  match a.summary_polyline with
  | none => []
  | some p => if p = "" then [] else decodeLoop (codeUnits p) 0 0

/-- Per-activity step of `_renderActivitiesUpToTime`: activities dated at
or before `t` with a non-empty decoded polyline are materialised
(`Map.set`), everything else is skipped. -/
def renderStep (baseOpacity : ℚ) (grid : List ((ℤ × ℤ) × ℕ)) (maxOverlap : ℕ)
    (t : ℚ) (m : List (ℕ × PolyEntry)) (a : Activity) : List (ℕ × PolyEntry) :=
  if a.start_date ≤ t then
    let coords := activityCoords a
    if coords = [] then m
    else mapSet m a.id (mkEntry baseOpacity grid maxOverlap t a coords)
  else m

/-- Embedding of `AnimationController._renderActivitiesUpToTime`. -/
def renderActivitiesUpToTime (s : ControllerState) (t : ℚ) : ControllerState :=
  let step := renderStep s.baseOpacity s.overlapGrid (s.maxOverlap.getD 0) t
  { s with activePolylines := s.sortedActivities.foldl step s.activePolylines }

/-- Embedding of `AnimationController.pause` (the cancelled animation-frame handle is
not part of the model). -/
def pauseC (s : ControllerState) : ControllerState := { s with isPlaying := false }

/-- Embedding of `AnimationController._clearAllPolylines`. -/
def clearAllPolylines (s : ControllerState) : ControllerState :=
  { s with activePolylines := [] }

/-- The synchronous part of `AnimationController.seek` before the final
`play()` call: remember nothing, pause, set `currentTime := date`
(no clamping in the source), clear and re-render all activities up to the
new time. -/
def seekBase (s : ControllerState) (date : ℚ) : ControllerState :=
  let s1 := pauseC s
  let s2 := { s1 with currentTime := some date }
  let s3 := clearAllPolylines s2
  renderActivitiesUpToTime s3 date

/-- Embedding of `AnimationController.getProgress` (`0` while the time range is unset;
division of equal times, `NaN` in JavaScript, cannot occur in the states
the claims quantify over). -/
def getProgress (s : ControllerState) : ℚ :=
  match s.startTime, s.endTime with
  | some st, some et =>
    let total := et - st
    let current := (s.currentTime.getD 0) - st
    max 0 (min 1 (current / total))
  | _, _ => 0

/-- The `AnimationController` constructor: sort by `start_date` (stable,
ascending), and unless the list is empty set the time range to the first
and last sorted start dates and build the overlap grid. -/
def mkController (activities : List Activity) (baseOpacity : ℚ) : ControllerState :=
  let sorted := List.insertionSort (fun a b => a.start_date ≤ b.start_date) activities
  let st := sorted.head?.map (fun a => a.start_date)
  let et := sorted.getLast?.map (fun a => a.start_date)
  { activities := activities
    sortedActivities := sorted
    baseOpacity := baseOpacity
    isPlaying := false
    speed := 1
    currentTime := st
    startTime := st
    endTime := et
    activePolylines := []
    overlapGrid := if sorted.isEmpty then [] else buildOverlapGrid sorted
    maxOverlap := if sorted.isEmpty then none else some (maxOverlapOf sorted) }

/-! ## Playback ticks -/

/-- Embedding of `AnimationController._addActivity` (at current time `ct`). -/
def addActivity (s : ControllerState) (ct : ℚ) (a : Activity) : ControllerState :=
  let coords := activityCoords a
  if coords = [] then s
  else
    let entry := mkEntry s.baseOpacity s.overlapGrid (s.maxOverlap.getD 0) ct a coords
    { s with activePolylines := mapSet s.activePolylines a.id entry }

/-- Embedding of `AnimationController._updateVisibleActivities` at current time `ct`:
materialise newly due activities, then recompute every entry's style in
place (entries are created fully drawn, so the `drawing` branch is the
no-op it is in the source). -/
def updateVisibleActivities (s : ControllerState) (ct : ℚ) : ControllerState :=
  let s1 := s.sortedActivities.foldl
    (fun st a =>
      if a.start_date ≤ ct ∧ ¬ mapHas st.activePolylines a.id then addActivity st ct a
      else st) s
  { s1 with activePolylines :=
      s1.activePolylines.map (fun kv =>
        let d := kv.2
        let d1 := if d.drawing ∧ d.progress < 1 then { d with progress := 1, drawing := false } else d
        let style := calculateStyle s1.baseOpacity s1.overlapGrid (s1.maxOverlap.getD 0)
          d1.activity.start_date d1.coords ct
        (kv.1, { d1 with
          opacity := style.opacity
          weight := style.weight
          color := darkenColor (defaultColors d1.activity.type) (style.recencyScore * 0.3) })) }

/-- One `_animate` tick given the elapsed real milliseconds `δ`:
advance the virtual clock by `δ × speed × 86_400_000 / 1000`; past
`endTime`, clamp, pause and render the final state, otherwise update the
visible activities.  `none` models the `TypeError` the source would raise
on a `null` clock (never reached during playback). -/
def tick (δ : ℚ) (s : ControllerState) : Option ControllerState :=
  if s.isPlaying = false then some s
  else match s.currentTime, s.endTime with
    | some ct, some et =>
      let msToAdvance := δ * s.speed * 24 * 60 * 60 * 1000 / 1000
      let ct2 := ct + msToAdvance
      if et < ct2 then
        some (renderActivitiesUpToTime (pauseC { s with currentTime := some et }) et)
      else
        some (updateVisibleActivities { s with currentTime := some ct2 } ct2)
    | _, _ => none

/-- A sequence of ticks with the given elapsed-time deltas. -/
def runTicks (deltas : List ℚ) (s : ControllerState) : Option ControllerState :=
  deltas.foldlM (fun st δ => tick δ st) s

/-- Embedding of `AnimationController.play`: a no-op when already playing;
otherwise set `isPlaying`, record `lastFrameTime := performance.now()` and
synchronously run `this._animate()`.  That first tick's elapsed real time
(the gap between the two consecutive `performance.now()` reads, a
nonnegative, typically tiny amount) is the parameter `δ`. -/
def playC (δ : ℚ) (s : ControllerState) : Option ControllerState :=
  if s.isPlaying then some s
  else tick δ { s with isPlaying := true }

/-- Embedding of `AnimationController.seek`: remember the play state, run the
pause/set/clear/re-render phase (`seekBase`), then resume with `play()`
if it was playing — which synchronously runs the first animation tick
with elapsed time `δ`. -/
def seekC (δ : ℚ) (s : ControllerState) (date : ℚ) : Option ControllerState :=
  let wasPlaying := s.isPlaying
  let s4 := seekBase s date
  if wasPlaying then playC δ s4 else some s4

/-! ## GIF exporter -/

/-- UTC day number of an epoch-millisecond instant
(`toISOString().split("T")[0]` identifies exactly this day). -/
def dayKey (ms : ℚ) : ℤ := ⌊ms / 86400000⌋

/-- End-of-day instant for a day number (`new Date(dateStr)` is midnight
UTC, then `setHours(23,59,59,999)`; modelled in UTC). -/
def endOfDay (d : ℤ) : ℚ := (d : ℚ) * 86400000 + 86399999

/-- Embedding of `GifExporter._getActivityDatesInRange`: the distinct day keys of
activities starting within `[startDate, endDate]`, sorted ascending
(string sort of `YYYY-MM-DD` keys is numeric sort of day numbers), each
mapped to its end-of-day instant. -/
def getActivityDatesInRange (activities : List Activity) (startDate endDate : ℚ) : List ℚ :=
  let inRange := activities.filter (fun a => startDate ≤ a.start_date ∧ a.start_date ≤ endDate)
  let keys := (inRange.map (fun a => dayKey a.start_date)).dedup
  (List.insertionSort (fun x y : ℤ => x ≤ y) keys).map endOfDay

/-- Embedding of `GifExporter._calculateFrameTimes`: uniform sampling when no activity
days exist, otherwise each frame index is mapped onto the activity days by
`Math.min(Math.floor(progress * numDays), numDays - 1)` with
`progress = i / (frameCount - 1 || 1)`. -/
def calculateFrameTimes (startDate endDate : ℚ) (frameCount : ℕ)
    (activityDates : List ℚ) : List ℚ :=
  if activityDates = [] then
    let totalTime := endDate - startDate
    let timeStep := totalTime / (frameCount : ℚ)
    (List.range frameCount).map (fun i : ℕ => startDate + timeStep * (i : ℚ))
  else
    (List.range frameCount).map (fun i : ℕ =>
      let denom : ℚ := if frameCount - 1 = 0 then 1 else ((frameCount - 1 : ℕ) : ℚ)
      let progress : ℚ := (i : ℚ) / denom
      let dateIndex := min (⌊progress * (activityDates.length : ℚ)⌋.toNat)
        (activityDates.length - 1)
      activityDates.getD dateIndex 0)

/-- A stroked route on an export frame canvas. -/
structure Stroke where
  points : List (ℚ × ℚ)
  color : ℕ
  width : ℚ
  alpha : ℚ
deriving DecidableEq

/-- The strokes painted by `GifExporter._captureHeatmapFrame`: every
activity of the full activity list with a truthy polyline decoding to at
least two points, in its type's base color at line width `2.5` and alpha
`0.3`. -/
def heatmapStrokes (activities : List Activity) : List Stroke :=
  activities.filterMap (fun a =>
    match a.summary_polyline with
    | none => none
    | some p =>
      if p = "" then none
      else
        let coords := decodePolylineGifStr p
        if coords.length < 2 then none
        else some { points := coords, color := gifActivityColor a.type, width := 2.5, alpha := 0.3 })

/-- Embedding of `GifExporter._captureHeatmapFrame`: reads
`animationController.activities` and paints the heatmap strokes; it never
writes any controller state, which returning the state unchanged makes
explicit. -/
def captureHeatmapFrame (s : ControllerState) : List Stroke × ControllerState :=
  (heatmapStrokes s.activities, s)

/-- Per-activity step of the heatmap loop with the decoder's exceptional
behaviour kept explicit: absent polylines are guarded out before the
decoder is called. -/
def heatmapStepE (a : Activity) : Except String (Option Stroke) :=
  match a.summary_polyline with
  | none => Except.ok none
  | some p =>
    if p = "" then Except.ok none
    else
      match decodePolylineGif (some p) with
      | Except.error e => Except.error e
      | Except.ok coords =>
        if coords.length < 2 then Except.ok none
        else Except.ok (some { points := coords, color := gifActivityColor a.type,
                               width := 2.5, alpha := 0.3 })

/-- The heatmap stroke loop in the exception monad: the strokes produced
at the decoder's only call site, or the error a throw would raise. -/
def heatmapStrokesE (activities : List Activity) : Except String (List Stroke) :=
  match activities with
  | [] => Except.ok []
  | a :: rest =>
    match heatmapStepE a with
    | Except.error e => Except.error e
    | Except.ok o =>
      match heatmapStrokesE rest with
      | Except.error e => Except.error e
      | Except.ok l => Except.ok (o.toList ++ l)

/-- First frame index whose capture throws, if it is an actual frame. -/
def firstFrameFail (frameFail : Option ℕ) (frameCount : ℕ) : Option ℕ :=
  match frameFail with
  | some j => if j < frameCount then some j else none
  | none => none

/-- Seek through a list of frame times in order.  The exporter seeks only
after it has paused the controller, and on a paused controller `seek`
never reaches its final `play()` call, so each seek is exactly
`seekBase` (`seekC_of_not_playing`). -/
def seekAll (s : ControllerState) (ts : List ℚ) : ControllerState := ts.foldl seekBase s

/-- Control flow of `GifExporter.export`.  Stage outcomes (the base-map
capture, each per-frame canvas capture, the heatmap capture, and the GIF
encoding, all of which the source awaits inside one `try`) are inputs:
`basemapOk`, `frameFail` (first frame index whose capture throws),
`heatmapOk`, `encodeOk`.  Returns the promise outcome (`.ok` carries the
number of frames handed to the encoder), the final `isExporting` flag and
the final controller state.  The `catch` block only resets the flag and
rethrows; the state restore (`seek(originalTime)`, `play()` if it was
playing) happens inside `try` after all captures and before encoding.
The restoring `play()` synchronously runs a first animation tick whose
elapsed real time is `restoreDelta`; the seeks of the capture loop and of
the restore run on the paused controller, where `seek` is `seekBase`.
Should that tick hit the modelled exceptional path (a playing flag with a
`null` clock, unreachable from the constructor), the `catch` block would
catch it like any other stage failure. -/
def runExport (exporting : Bool) (s : ControllerState)
    (startDate endDate duration fps : ℚ)
    (basemapOk : Bool) (frameFail : Option ℕ) (heatmapOk encodeOk : Bool)
    (restoreDelta : ℚ) :
    Except String ℕ × Bool × ControllerState :=
  if exporting then (Except.error "Export already in progress", exporting, s)
  else
    let activityDates := getActivityDatesInRange s.activities startDate endDate
    let frameCount := ⌊duration * fps⌋.toNat
    let wasPlaying := s.isPlaying
    let originalTime := s.currentTime
    let s1 := pauseC s
    let frameTimes := calculateFrameTimes startDate endDate frameCount activityDates
    if basemapOk = false then (Except.error "basemap capture failed", false, s1)
    else
      match firstFrameFail frameFail frameTimes.length with
      | some j =>
        let s2 := seekAll s1 (frameTimes.take (j + 1))
        (Except.error "frame capture failed", false, s2)
      | none =>
        let s2 := seekAll s1 frameTimes
        if heatmapOk = false then (Except.error "heatmap capture failed", false, s2)
        else
          let s3 := seekBase s2 (originalTime.getD 0)
          match (if wasPlaying then playC restoreDelta s3 else some s3) with
          | none =>
            (Except.error "restore play failed", false, { s3 with isPlaying := true })
          | some s4 =>
            if encodeOk = false then (Except.error "encode failed", false, s4)
            else (Except.ok (frameTimes.length + 1), false, s4)

/-! ## Helper lemmas about the `activePolylines` map model -/

theorem mapHas_map_keys (m : List (ℕ × PolyEntry)) (f : ℕ × PolyEntry → ℕ × PolyEntry)
    (hf : ∀ kv, (f kv).1 = kv.1) (i : ℕ) : mapHas (m.map f) i = mapHas m i := by
  induction m with
  | nil => rfl
  | cons kv rest ih =>
    simp only [List.map_cons]
    unfold mapHas at *
    simp only [List.any_cons, hf kv, ih]

theorem mapHas_mapSet (m : List (ℕ × PolyEntry)) (k i : ℕ) (v : PolyEntry) :
    mapHas (mapSet m k v) i = true ↔ mapHas m i = true ∨ i = k := by
  unfold mapSet
  split
  case isTrue hk =>
    rw [mapHas_map_keys m _ (fun kv => by by_cases h : kv.1 = k <;> simp [h]) i]
    constructor
    · exact Or.inl
    · rintro (h | rfl)
      · exact h
      · exact hk
  case isFalse hk =>
    unfold mapHas
    simp only [List.any_append, List.any_cons, List.any_nil, Bool.or_false,
      Bool.or_eq_true, decide_eq_true_eq]
    constructor
    · rintro (h | h)
      · exact Or.inl h
      · exact Or.inr h.symm
    · rintro (h | h)
      · exact Or.inl h
      · exact Or.inr h.symm

theorem find_mapped_ne (m : List (ℕ × PolyEntry)) (k i : ℕ) (v : PolyEntry)
    (h : ¬ k = i) :
    (m.map (fun kv => if kv.1 = k then (k, v) else kv)).find? (fun kv => kv.1 = i)
      = m.find? (fun kv => kv.1 = i) := by
  have hik : ¬ i = k := fun hc => h hc.symm
  induction m with
  | nil => rfl
  | cons kv rest ih =>
    by_cases hkv : kv.1 = k
    · have hne : ¬ kv.1 = i := fun hc => h (hkv ▸ hc)
      simp [List.find?_cons, hkv, h, hne, ih]
    · by_cases hki : kv.1 = i <;> simp [List.find?_cons, hkv, hki, hik, ih]

theorem find_mapped_self (m : List (ℕ × PolyEntry)) (k : ℕ) (v : PolyEntry)
    (hk : mapHas m k = true) :
    (m.map (fun kv => if kv.1 = k then (k, v) else kv)).find? (fun kv => kv.1 = k)
      = some (k, v) := by
  induction m with
  | nil => simp [mapHas] at hk
  | cons kv rest ih =>
    by_cases hkv : kv.1 = k
    · simp [List.find?_cons, hkv]
    · have hrest : mapHas rest k = true := by
        unfold mapHas at hk ⊢
        simpa [List.any_cons, hkv] using hk
      simp [List.find?_cons, hkv, ih hrest]

theorem find_eq_none_of_not_has (m : List (ℕ × PolyEntry)) (k : ℕ)
    (hk : ¬ mapHas m k = true) : m.find? (fun kv => kv.1 = k) = none := by
  rw [List.find?_eq_none]
  intro kv hkv
  unfold mapHas at hk
  simp only [List.any_eq_true, not_exists, not_and] at hk
  simpa using hk kv hkv

theorem mapLookup_mapSet_self (m : List (ℕ × PolyEntry)) (k : ℕ) (v : PolyEntry) :
    mapLookup (mapSet m k v) k = some v := by
  unfold mapSet mapLookup
  split
  case isTrue hk => rw [find_mapped_self m k v hk]; rfl
  case isFalse hk =>
    rw [List.find?_append, find_eq_none_of_not_has m k hk]
    simp [List.find?_cons]

theorem mapLookup_mapSet_ne (m : List (ℕ × PolyEntry)) (k i : ℕ) (v : PolyEntry)
    (h : i ≠ k) : mapLookup (mapSet m k v) i = mapLookup m i := by
  have hki : ¬ k = i := fun hc => h hc.symm
  unfold mapSet mapLookup
  split
  case isTrue hk => rw [find_mapped_ne m k i v hki]
  case isFalse hk =>
    rw [List.find?_append]
    cases hfind : m.find? (fun kv => kv.1 = i) with
    | some kv => simp
    | none => simp [List.find?_cons, hki]

/-! ## Helper lemmas about the controller operations -/

theorem seekBase_isPlaying (s : ControllerState) (t : ℚ) :
    (seekBase s t).isPlaying = false := rfl

theorem seekBase_currentTime (s : ControllerState) (t : ℚ) :
    (seekBase s t).currentTime = some t := rfl

theorem seekBase_endTime (s : ControllerState) (t : ℚ) :
    (seekBase s t).endTime = s.endTime := rfl

theorem seekC_of_not_playing (δ : ℚ) (s : ControllerState) (t : ℚ)
    (h : s.isPlaying = false) : seekC δ s t = some (seekBase s t) := by
  unfold seekC
  rw [if_neg (by simp [h])]

theorem seekAll_isPlaying_of_false (ts : List ℚ) (s : ControllerState)
    (h : s.isPlaying = false) : (seekAll s ts).isPlaying = false := by
  induction ts generalizing s with
  | nil => exact h
  | cons t rest ih =>
    rw [seekAll, List.foldl_cons]
    have := ih (seekBase s t) (seekBase_isPlaying s t)
    rw [seekAll] at this
    exact this

theorem seekAll_endTime (ts : List ℚ) (s : ControllerState) :
    (seekAll s ts).endTime = s.endTime := by
  induction ts generalizing s with
  | nil => rfl
  | cons t rest ih =>
    rw [seekAll, List.foldl_cons]
    have := ih (seekBase s t)
    rw [seekAll] at this
    rw [this, seekBase_endTime]

theorem mapHas_renderStep (b : ℚ) (g : List ((ℤ × ℤ) × ℕ)) (mo : ℕ) (t : ℚ)
    (m : List (ℕ × PolyEntry)) (a : Activity) (i : ℕ)
    (h : mapHas m i = true) : mapHas (renderStep b g mo t m a) i = true := by
  simp only [renderStep]
  by_cases hd : a.start_date ≤ t
  · rw [if_pos hd]
    by_cases hc : activityCoords a = []
    · rw [if_pos hc]; exact h
    · rw [if_neg hc]; exact (mapHas_mapSet m a.id i _).mpr (Or.inl h)
  · rw [if_neg hd]; exact h

theorem mapHas_foldl_renderStep (b : ℚ) (g : List ((ℤ × ℤ) × ℕ)) (mo : ℕ) (t : ℚ)
    (l : List Activity) (m : List (ℕ × PolyEntry)) (i : ℕ)
    (h : mapHas m i = true) :
    mapHas (l.foldl (renderStep b g mo t) m) i = true := by
  induction l generalizing m with
  | nil => exact h
  | cons a rest ih => exact ih _ (mapHas_renderStep b g mo t m a i h)

theorem mapHas_foldl_renderStep_iff (b : ℚ) (g : List ((ℤ × ℤ) × ℕ)) (mo : ℕ) (t : ℚ)
    (l : List Activity) (m : List (ℕ × PolyEntry)) (i : ℕ) :
    mapHas (l.foldl (renderStep b g mo t) m) i = true ↔
      mapHas m i = true ∨ ∃ a ∈ l, a.id = i ∧ a.start_date ≤ t ∧ activityCoords a ≠ [] := by
  induction l generalizing m with
  | nil => simp
  | cons a rest ih =>
    rw [List.foldl_cons, ih]
    constructor
    · rintro (h | h)
      · simp only [renderStep] at h
        by_cases hd : a.start_date ≤ t
        · rw [if_pos hd] at h
          by_cases hc : activityCoords a = []
          · rw [if_pos hc] at h
            exact Or.inl h
          · rw [if_neg hc] at h
            rcases (mapHas_mapSet m a.id i _).mp h with h | rfl
            · exact Or.inl h
            · exact Or.inr ⟨a, List.mem_cons_self a rest, rfl, hd, hc⟩
        · rw [if_neg hd] at h
          exact Or.inl h
      · obtain ⟨x, hx, hrest⟩ := h
        exact Or.inr ⟨x, List.mem_cons_of_mem a hx, hrest⟩
    · rintro (h | ⟨x, hx, hid, hd, hc⟩)
      · exact Or.inl (mapHas_renderStep b g mo t m a i h)
      · rcases List.mem_cons.mp hx with rfl | hx
        · refine Or.inl ?_
          simp only [renderStep]
          rw [if_pos hd, if_neg hc]
          exact (mapHas_mapSet m x.id i _).mpr (Or.inr hid.symm)
        · exact Or.inr ⟨x, hx, hid, hd, hc⟩

theorem mapLookup_foldl_renderStep_of_absent (b : ℚ) (g : List ((ℤ × ℤ) × ℕ)) (mo : ℕ)
    (t : ℚ) (l : List Activity) (m : List (ℕ × PolyEntry)) (i : ℕ)
    (h : ∀ a ∈ l, a.id ≠ i) :
    mapLookup (l.foldl (renderStep b g mo t) m) i = mapLookup m i := by
  induction l generalizing m with
  | nil => rfl
  | cons a rest ih =>
    rw [List.foldl_cons, ih _ (fun x hx => h x (List.mem_cons_of_mem a hx))]
    simp only [renderStep]
    by_cases hd : a.start_date ≤ t
    · rw [if_pos hd]
      by_cases hc : activityCoords a = []
      · rw [if_pos hc]
      · rw [if_neg hc]
        exact mapLookup_mapSet_ne m a.id i _
          (fun hc2 => h a (List.mem_cons_self a rest) hc2.symm)
    · rw [if_neg hd]

/-! ## Score lemmas -/

theorem length_le_sum_of_one_le (l : List ℕ) (h : ∀ x ∈ l, 1 ≤ x) :
    l.length ≤ l.sum := by
  induction l with
  | nil => simp
  | cons x rest ih =>
    simp only [List.length_cons, List.sum_cons]
    have hx := h x (List.mem_cons_self x rest)
    have := ih (fun y hy => h y (List.mem_cons_of_mem x hy))
    omega

theorem visitedCells_ne_nil (coords : List (ℚ × ℚ)) (h : coords ≠ []) :
    visitedCellsOf coords ≠ [] := by
  unfold visitedCellsOf
  simp only [ne_eq, List.dedup_eq_nil, List.map_eq_nil_iff]
  exact h

theorem one_le_avgCellCount (grid : List ((ℤ × ℤ) × ℕ)) (coords : List (ℚ × ℚ))
    (h : coords ≠ []) : 1 ≤ avgCellCount grid coords := by
  unfold avgCellCount
  have hlen : 0 < (visitedCellsOf coords).length :=
    List.length_pos.mpr (visitedCells_ne_nil coords h)
  have hsum : (visitedCellsOf coords).length ≤ totalOverlapOf grid coords := by
    unfold totalOverlapOf
    have := length_le_sum_of_one_le
      ((visitedCellsOf coords).map (fun c => let g := gridGet grid c; if g = 0 then 1 else g))
      (by
        intro x hx
        simp only [List.mem_map] at hx
        obtain ⟨c, _, rfl⟩ := hx
        by_cases hg : gridGet grid c = 0 <;> simp [hg] <;> omega)
    simpa using this
  rw [le_div_iff₀ (by exact_mod_cast hlen), one_mul]
  exact_mod_cast hsum

theorem overlapScore_nonneg (grid : List ((ℤ × ℤ) × ℕ)) (maxO : ℕ)
    (coords : List (ℚ × ℚ)) : 0 ≤ overlapScore grid maxO coords := by
  unfold overlapScore
  by_cases hc : coords = []
  · rw [if_pos hc]
  · rw [if_neg hc]
    by_cases hm : maxO ≤ 1
    · rw [if_pos hm]
    · rw [if_neg hm]
      have havg := one_le_avgCellCount grid coords hc
      have hm1 : (1 : ℚ) < (maxO : ℚ) := by exact_mod_cast Nat.lt_of_not_le hm
      exact le_min zero_le_one (div_nonneg (by linarith) (by linarith))

theorem overlapScore_le_one (grid : List ((ℤ × ℤ) × ℕ)) (maxO : ℕ)
    (coords : List (ℚ × ℚ)) : overlapScore grid maxO coords ≤ 1 := by
  unfold overlapScore
  by_cases hc : coords = []
  · rw [if_pos hc]; exact zero_le_one
  · rw [if_neg hc]
    by_cases hm : maxO ≤ 1
    · rw [if_pos hm]; exact zero_le_one
    · rw [if_neg hm]; exact min_le_left 1 _

theorem recencyScore_nonneg (s t : ℚ) : 0 ≤ getRecencyScore s t := by
  simp only [getRecencyScore, fadeWindowMs]
  split_ifs <;> linarith

theorem recencyScore_le_one (s t : ℚ) : getRecencyScore s t ≤ 1 := by
  simp only [getRecencyScore, fadeWindowMs]
  split_ifs <;> linarith

/-! ## Claim C4 -/

/-- C4: `recencyScore(s, t)` is exactly 1 when `s ≥ t`, exactly 0 when the
age `t − s` is at least the 90-day fade window, decays linearly in between,
and is monotone: for `startA < startB ≤ t`,
`recencyScore(A) ≤ recencyScore(B)`. -/
theorem recencyScore_spec :
    (∀ s t : ℚ, t ≤ s → getRecencyScore s t = 1) ∧
    (∀ s t : ℚ, fadeWindowMs ≤ t - s → getRecencyScore s t = 0) ∧
    (∀ s t : ℚ, 0 < t - s → t - s < fadeWindowMs →
      getRecencyScore s t = 1 - (t - s) / fadeWindowMs) ∧
    (∀ sA sB t : ℚ, sA < sB → sB ≤ t →
      getRecencyScore sA t ≤ getRecencyScore sB t) := by
  refine ⟨?_, ?_, ?_, ?_⟩
  · intro s t h
    unfold getRecencyScore
    rw [if_pos (by linarith)]
  · intro s t h
    unfold getRecencyScore
    have h0 : ¬ t - s ≤ 0 := by unfold fadeWindowMs at h; linarith
    rw [if_neg h0, if_pos h]
  · intro s t h1 h2
    unfold getRecencyScore
    rw [if_neg (by linarith), if_neg (by linarith)]
  · intro sA sB t hab hbt
    simp only [getRecencyScore, fadeWindowMs]
    split_ifs <;> linarith

/-- C4 witness: concrete evaluations through `recencyScore_spec`. -/
theorem recencyScore_spec_witness :
    getRecencyScore 10 3 = 1 ∧ getRecencyScore 0 7776000000 = 0 ∧
    getRecencyScore 0 3888000000 = 1 - 3888000000 / fadeWindowMs ∧
    getRecencyScore 1 5 ≤ getRecencyScore 2 5 :=
  ⟨recencyScore_spec.1 10 3 (by norm_num),
   recencyScore_spec.2.1 0 7776000000 (by unfold fadeWindowMs; norm_num),
   by
     have h := recencyScore_spec.2.2.1 0 3888000000 (by norm_num)
       (by unfold fadeWindowMs; norm_num)
     simpa using h,
   recencyScore_spec.2.2.2 1 2 5 (by norm_num) (by norm_num)⟩

/-! ## Claim C10 -/

/-- C10: constructing the controller with an empty activity list leaves
`startTime`, `endTime` and `currentTime` `null`, never builds the overlap
grid (empty grid map, `maxOverlap` still undefined), and `getProgress()`
returns 0. -/
theorem emptyController_spec (b : ℚ) :
    (mkController [] b).startTime = none ∧
    (mkController [] b).endTime = none ∧
    (mkController [] b).currentTime = none ∧
    (mkController [] b).overlapGrid = [] ∧
    (mkController [] b).maxOverlap = none ∧
    getProgress (mkController [] b) = 0 :=
  ⟨rfl, rfl, rfl, rfl, rfl, rfl⟩

/-! ## Claim C8 -/

/-- C8 counterexample: the claim asserts the polyline decoder returns an
empty sequence rather than throwing on empty or undefined input; the
`GifExporter` decoder, applied to an undefined input, throws a
`TypeError` instead (it reads `encoded.length` without a guard). -/
theorem gifDecode_undefined_throws :
    decodePolylineGif none =
      Except.error "TypeError: Cannot read properties of undefined (reading length)" := rfl

/-- C8 (amended): the `AnimationController` decoder returns the empty
sequence on undefined and on empty input; the `GifExporter` decoder
returns the empty sequence on empty input (but throws on undefined); and
at the `GifExporter` decoder's only call site (the heatmap loop) absent
polylines are guarded out first, so the loop never throws and produces
exactly the heatmap strokes. -/
theorem decode_graceful_spec :
    decodePolylineAC none = [] ∧
    decodePolylineAC (some "") = [] ∧
    decodePolylineGif (some "") = Except.ok [] ∧
    (∀ acts : List Activity, heatmapStrokesE acts = Except.ok (heatmapStrokes acts)) := by
  refine ⟨rfl, rfl, rfl, ?_⟩
  intro acts
  induction acts with
  | nil => rfl
  | cons a rest ih =>
    rw [heatmapStrokesE]
    cases h : a.summary_polyline with
    | none =>
      simp [heatmapStepE, h, ih, heatmapStrokes, List.filterMap_cons]
    | some p =>
      by_cases hp : p = ""
      · simp [heatmapStepE, h, hp, ih, heatmapStrokes, List.filterMap_cons]
      · by_cases hl : (decodePolylineGifStr p).length < 2
        · simp [heatmapStepE, h, hp, hl, ih, heatmapStrokes, List.filterMap_cons,
            decodePolylineGif]
        · simp [heatmapStepE, h, hp, hl, ih, heatmapStrokes, List.filterMap_cons,
            decodePolylineGif]

/-! ## Claim C5 -/

/-- C5: for every route with a non-empty decoded point list, against the
overlap grid built from the activity set, the overlap score lies in
`[0, 1]`; when `maxOverlap ≤ 1` it is 0; and otherwise it is the average
distinct-visited-cell count rescaled linearly (capped at 1) so that an
average of 1 scores 0 and an average of `maxOverlap` scores 1. -/
theorem overlapScore_spec (routes : List Activity) (coords : List (ℚ × ℚ))
    (hne : coords ≠ []) :
    0 ≤ overlapScore (buildOverlapGrid routes) (maxOverlapOf routes) coords ∧
    overlapScore (buildOverlapGrid routes) (maxOverlapOf routes) coords ≤ 1 ∧
    (maxOverlapOf routes ≤ 1 →
      overlapScore (buildOverlapGrid routes) (maxOverlapOf routes) coords = 0) ∧
    (1 < maxOverlapOf routes →
      overlapScore (buildOverlapGrid routes) (maxOverlapOf routes) coords
        = min 1 ((avgCellCount (buildOverlapGrid routes) coords - 1)
            / ((maxOverlapOf routes : ℚ) - 1)) ∧
      (avgCellCount (buildOverlapGrid routes) coords = 1 →
        overlapScore (buildOverlapGrid routes) (maxOverlapOf routes) coords = 0) ∧
      (avgCellCount (buildOverlapGrid routes) coords = (maxOverlapOf routes : ℚ) →
        overlapScore (buildOverlapGrid routes) (maxOverlapOf routes) coords = 1)) := by
  refine ⟨overlapScore_nonneg _ _ _, overlapScore_le_one _ _ _, ?_, ?_⟩
  · intro hm
    unfold overlapScore
    rw [if_neg hne]
    simp only [if_pos hm]
  · intro hm
    have hnotle : ¬ maxOverlapOf routes ≤ 1 := Nat.not_le.mpr hm
    have hform : overlapScore (buildOverlapGrid routes) (maxOverlapOf routes) coords
        = min 1 ((avgCellCount (buildOverlapGrid routes) coords - 1)
            / ((maxOverlapOf routes : ℚ) - 1)) := by
      unfold overlapScore
      rw [if_neg hne]
      simp only [if_neg hnotle]
    refine ⟨hform, ?_, ?_⟩
    · intro havg
      rw [hform, havg]
      norm_num
    · intro havg
      rw [hform, havg]
      have hm1 : (1 : ℚ) < (maxOverlapOf routes : ℚ) := by exact_mod_cast hm
      rw [div_self (by linarith)]
      exact min_self 1

/-- C5 witness: two routes sharing one grid cell, scored on a concrete
coordinate list, through `overlapScore_spec`. -/
theorem overlapScore_spec_witness :
    0 ≤ overlapScore (buildOverlapGrid
        [⟨1, "Run", 0, 0, some "AA"⟩, ⟨2, "Ride", 0, 0, some "AA"⟩])
      (maxOverlapOf [⟨1, "Run", 0, 0, some "AA"⟩, ⟨2, "Ride", 0, 0, some "AA"⟩])
      [((0 : ℚ), (0 : ℚ))] ∧
    overlapScore (buildOverlapGrid
        [⟨1, "Run", 0, 0, some "AA"⟩, ⟨2, "Ride", 0, 0, some "AA"⟩])
      (maxOverlapOf [⟨1, "Run", 0, 0, some "AA"⟩, ⟨2, "Ride", 0, 0, some "AA"⟩])
      [((0 : ℚ), (0 : ℚ))] ≤ 1 :=
  ⟨(overlapScore_spec [⟨1, "Run", 0, 0, some "AA"⟩, ⟨2, "Ride", 0, 0, some "AA"⟩]
      [((0 : ℚ), (0 : ℚ))] (by simp)).1,
   (overlapScore_spec [⟨1, "Run", 0, 0, some "AA"⟩, ⟨2, "Ride", 0, 0, some "AA"⟩]
      [((0 : ℚ), (0 : ℚ))] (by simp)).2.1⟩

/-! ## Claim C6 -/

/-- C6: for every activity start time, route geometry and virtual time the
computed style satisfies
`opacity = clamp01(0.7 × recencyOpacity + 0.3 × overlapOpacity)` with the
two opacities the linear interpolations of their configured ranges by the
recency and overlap scores, and `weight = 1 + 1.5 × recencyScore`
(for a nonnegative base opacity the unclamped combination is nonnegative,
so the source's `Math.min(1, ·)` agrees with the claim's `clamp01`). -/
theorem style_spec (b : ℚ) (hb : 0 ≤ b) (grid : List ((ℤ × ℤ) × ℕ)) (maxO : ℕ)
    (activityDate : ℚ) (coords : List (ℚ × ℚ)) (t : ℚ) :
    (calculateStyle b grid maxO activityDate coords t).opacity
      = max 0 (min 1
          (0.7 * (0.15 * b / 0.5
              + getRecencyScore activityDate t * (1.0 * b / 0.5 - 0.15 * b / 0.5))
            + 0.3 * (0.15 * b / 0.5
              + overlapScore grid maxO coords * (0.75 * b / 0.5 - 0.15 * b / 0.5)))) ∧
    (calculateStyle b grid maxO activityDate coords t).weight
      = 1 + 1.5 * getRecencyScore activityDate t := by
  have hrs0 := recencyScore_nonneg activityDate t
  have hos0 := overlapScore_nonneg grid maxO coords
  constructor
  · simp only [calculateStyle]
    have h1 : (0 : ℚ) ≤ 0.7 * (0.15 * b / 0.5
          + getRecencyScore activityDate t * (1.0 * b / 0.5 - 0.15 * b / 0.5))
        + 0.3 * (0.15 * b / 0.5
          + overlapScore grid maxO coords * (0.75 * b / 0.5 - 0.15 * b / 0.5)) := by
      have e : 0.7 * (0.15 * b / 0.5
            + getRecencyScore activityDate t * (1.0 * b / 0.5 - 0.15 * b / 0.5))
          + 0.3 * (0.15 * b / 0.5
            + overlapScore grid maxO coords * (0.75 * b / 0.5 - 0.15 * b / 0.5))
          = 0.3 * b + 1.19 * (getRecencyScore activityDate t * b)
            + 0.36 * (overlapScore grid maxO coords * b) := by ring
      rw [e]
      have h2 := mul_nonneg hrs0 hb
      have h3 := mul_nonneg hos0 hb
      linarith
    rw [max_eq_right (le_min zero_le_one h1)]
    congr 1
    ring
  · simp only [calculateStyle]
    ring

/-- C6 witness: the default base opacity `0.5` at concrete inputs through
`style_spec`. -/
theorem style_spec_witness :
    (calculateStyle 0.5 [] 0 0 [] 0).opacity
      = max 0 (min 1
          (0.7 * (0.15 * 0.5 / 0.5 + getRecencyScore 0 0 * (1.0 * 0.5 / 0.5 - 0.15 * 0.5 / 0.5))
            + 0.3 * (0.15 * 0.5 / 0.5
              + overlapScore [] 0 [] * (0.75 * 0.5 / 0.5 - 0.15 * 0.5 / 0.5)))) ∧
    (calculateStyle 0.5 [] 0 0 [] 0).weight = 1 + 1.5 * getRecencyScore 0 0 :=
  ⟨(style_spec 0.5 (by norm_num) [] 0 0 [] 0).1,
   (style_spec 0.5 (by norm_num) [] 0 0 [] 0).2⟩

/-! ## Claim C9 -/

/-- C9: the coverage (heatmap) frame draws exactly the activities of the
full activity set whose polyline decodes to at least two points —
independent of the date filter, the current clock and the visible set —
each at the fixed uniform opacity `0.3` and width `2.5`, and capturing it
leaves the whole controller state (in particular `activePolylines` and
every stored style) unchanged. -/
theorem heatmapFrame_spec (s : ControllerState) :
    (captureHeatmapFrame s).2 = s ∧
    (∀ st ∈ (captureHeatmapFrame s).1,
      st.alpha = 0.3 ∧ st.width = 2.5 ∧ 2 ≤ st.points.length) ∧
    (∀ a ∈ s.activities, ∀ p, a.summary_polyline = some p → p ≠ "" →
      2 ≤ (decodePolylineGifStr p).length →
      ({ points := decodePolylineGifStr p, color := gifActivityColor a.type,
         width := 2.5, alpha := 0.3 } : Stroke) ∈ (captureHeatmapFrame s).1) := by
  refine ⟨rfl, ?_, ?_⟩
  · intro st hst
    simp only [captureHeatmapFrame, heatmapStrokes] at hst
    rw [List.mem_filterMap] at hst
    obtain ⟨a, _, hfa⟩ := hst
    cases h : a.summary_polyline with
    | none => simp only [h] at hfa; exact absurd hfa (by simp)
    | some p =>
      simp only [h] at hfa
      by_cases hp : p = ""
      · rw [if_pos hp] at hfa; simp at hfa
      · rw [if_neg hp] at hfa
        by_cases hl : (decodePolylineGifStr p).length < 2
        · simp only [if_pos hl] at hfa; simp at hfa
        · simp only [if_neg hl] at hfa
          cases hfa
          exact ⟨rfl, rfl, Nat.not_lt.mp hl⟩
  · intro a ha p hpoly hpne hlen
    simp only [captureHeatmapFrame, heatmapStrokes]
    rw [List.mem_filterMap]
    refine ⟨a, ha, ?_⟩
    simp only [hpoly]
    rw [if_neg hpne, if_neg (Nat.not_lt.mpr hlen)]

/-- C9 witness: a concrete one-activity controller whose route decodes to
two points, through `heatmapFrame_spec`. -/
theorem heatmapFrame_spec_witness :
    ({ points := decodePolylineGifStr "????", color := gifActivityColor "Run",
       width := 2.5, alpha := 0.3 } : Stroke)
      ∈ (captureHeatmapFrame (mkController [⟨7, "Run", 0, 0, some "????"⟩] 0.5)).1 :=
  (heatmapFrame_spec (mkController [⟨7, "Run", 0, 0, some "????"⟩] 0.5)).2.2
    ⟨7, "Run", 0, 0, some "????"⟩ (by simp [mkController, List.insertionSort])
    "????" rfl (by simp) (by decide)

/-! ## Claim C3 -/

theorem seekBase_activePolylines (s : ControllerState) (t : ℚ) :
    (seekBase s t).activePolylines =
      s.sortedActivities.foldl
        (renderStep s.baseOpacity s.overlapGrid (s.maxOverlap.getD 0) t) [] := rfl

theorem addActivity_fields (s : ControllerState) (ct : ℚ) (a : Activity) :
    (addActivity s ct a).isPlaying = s.isPlaying ∧
    (addActivity s ct a).currentTime = s.currentTime := by
  simp only [addActivity]
  by_cases hc : activityCoords a = []
  · rw [if_pos hc]; exact ⟨rfl, rfl⟩
  · rw [if_neg hc]; exact ⟨rfl, rfl⟩

theorem updateVisibleFold_fields (ct : ℚ) (l : List Activity) (s : ControllerState) :
    (l.foldl (fun st a =>
      if a.start_date ≤ ct ∧ ¬ mapHas st.activePolylines a.id then addActivity st ct a
      else st) s).isPlaying = s.isPlaying ∧
    (l.foldl (fun st a =>
      if a.start_date ≤ ct ∧ ¬ mapHas st.activePolylines a.id then addActivity st ct a
      else st) s).currentTime = s.currentTime := by
  induction l generalizing s with
  | nil => exact ⟨rfl, rfl⟩
  | cons a rest ih =>
    rw [List.foldl_cons]
    by_cases hcond : a.start_date ≤ ct ∧ ¬ mapHas s.activePolylines a.id = true
    · rw [if_pos hcond]
      refine ⟨((ih _).1).trans (addActivity_fields s ct a).1,
        ((ih _).2).trans (addActivity_fields s ct a).2⟩
    · rw [if_neg hcond]
      exact ih s

theorem updateVisible_fields (s : ControllerState) (ct : ℚ) :
    (updateVisibleActivities s ct).isPlaying = s.isPlaying ∧
    (updateVisibleActivities s ct).currentTime = s.currentTime := by
  simp only [updateVisibleActivities]
  exact updateVisibleFold_fields ct s.sortedActivities s

/-- A `play()` on a paused controller whose clock is set, when the first
tick's advanced time passes `endTime`: the clock clamps to `endTime` and
the controller pauses again. -/
theorem playC_paused_clamp (δ : ℚ) (s : ControllerState) (ct et : ℚ)
    (hp : s.isPlaying = false) (hct : s.currentTime = some ct)
    (het : s.endTime = some et)
    (hlt : et < ct + δ * s.speed * 24 * 60 * 60 * 1000 / 1000) :
    ∃ u, playC δ s = some u ∧ u.isPlaying = false ∧ u.currentTime = some et := by
  simp only [playC]
  rw [if_neg (by simp [hp])]
  simp only [tick]
  rw [if_neg (by simp : ¬ (true = false))]
  have hct2 : ({ s with isPlaying := true } : ControllerState).currentTime = some ct := hct
  have het2 : ({ s with isPlaying := true } : ControllerState).endTime = some et := het
  rw [hct2, het2]
  dsimp only
  rw [if_pos hlt]
  exact ⟨_, rfl, rfl, rfl⟩

/-- A `play()` on a paused controller whose clock is set, when the first
tick's advanced time stays within `endTime`: the controller keeps playing
from the advanced time. -/
theorem playC_paused_within (δ : ℚ) (s : ControllerState) (ct et : ℚ)
    (hp : s.isPlaying = false) (hct : s.currentTime = some ct)
    (het : s.endTime = some et)
    (hlt : ¬ (et < ct + δ * s.speed * 24 * 60 * 60 * 1000 / 1000)) :
    ∃ u, playC δ s = some u ∧ u.isPlaying = true ∧
      u.currentTime = some (ct + δ * s.speed * 24 * 60 * 60 * 1000 / 1000) := by
  simp only [playC]
  rw [if_neg (by simp [hp])]
  simp only [tick]
  rw [if_neg (by simp : ¬ (true = false))]
  have hct2 : ({ s with isPlaying := true } : ControllerState).currentTime = some ct := hct
  have het2 : ({ s with isPlaying := true } : ControllerState).endTime = some et := het
  rw [hct2, het2]
  dsimp only
  rw [if_neg hlt]
  refine ⟨_, rfl, ?_, ?_⟩
  · exact (updateVisible_fields _ _).1
  · exact (updateVisible_fields _ _).2

/-- C3 counterexample: `seek` stores the target time unclamped.  For a
paused one-activity controller whose time range is `[0, 0]`, seeking to
`5` returns with `currentTime = 5`, while the claimed
`clamp(t, startTime, endTime)` is `0`. -/
theorem seek_clamp_cex :
    ∃ s', seekC 0 (mkController [⟨1, "Run", 0, 1000, some "AA"⟩] 0.5) 5 = some s' ∧
      s'.currentTime = some 5 ∧
      min (max (5 : ℚ)
          ((mkController [⟨1, "Run", 0, 1000, some "AA"⟩] 0.5).startTime.getD 0))
        ((mkController [⟨1, "Run", 0, 1000, some "AA"⟩] 0.5).endTime.getD 0) = 0 ∧
      s'.currentTime ≠ some (min (max (5 : ℚ)
          ((mkController [⟨1, "Run", 0, 1000, some "AA"⟩] 0.5).startTime.getD 0))
        ((mkController [⟨1, "Run", 0, 1000, some "AA"⟩] 0.5).endTime.getD 0)) := by
  refine ⟨seekBase (mkController [⟨1, "Run", 0, 1000, some "AA"⟩] 0.5) 5,
    seekC_of_not_playing 0 _ 5 rfl, ?_, ?_, ?_⟩ <;> decide

/-- C3 (amended): `seek(t)` synchronously clears and re-renders the
visible set for time `t` and stores `currentTime := t` without clamping.
On a paused controller it returns in exactly that state — still paused,
`currentTime = t` even outside `[startTime, endTime]`, with exactly the
activities dated at or before `t` with a non-empty decoded polyline
materialised, each styled for time `t`.  On a playing controller the
final `play()` synchronously runs the first animation tick with elapsed
real time `δ`: the clock advances to `t + δ·speed·86400000/1000`; when
that exceeds `endTime` — in particular whenever `t > endTime` —
`currentTime` is clamped to `endTime` and the controller pauses,
otherwise it keeps playing from the advanced time. -/
theorem seek_spec (δ : ℚ) (s : ControllerState) (t : ℚ)
    (hnd : (s.sortedActivities.map (fun a => a.id)).Nodup) :
    (s.isPlaying = false →
      ∃ s', seekC δ s t = some s' ∧
        s'.isPlaying = false ∧
        s'.currentTime = some t ∧
        (∀ i : ℕ, mapHas s'.activePolylines i = true ↔
          ∃ a ∈ s.sortedActivities, a.id = i ∧ a.start_date ≤ t ∧ activityCoords a ≠ []) ∧
        (∀ a ∈ s.sortedActivities, a.start_date ≤ t → activityCoords a ≠ [] →
          mapLookup s'.activePolylines a.id
            = some (mkEntry s.baseOpacity s.overlapGrid (s.maxOverlap.getD 0) t a
                (activityCoords a)))) ∧
    (∀ et : ℚ, s.isPlaying = true → s.endTime = some et →
      et < t + δ * s.speed * 24 * 60 * 60 * 1000 / 1000 →
      ∃ s', seekC δ s t = some s' ∧ s'.isPlaying = false ∧ s'.currentTime = some et) ∧
    (∀ et : ℚ, s.isPlaying = true → s.endTime = some et →
      ¬ (et < t + δ * s.speed * 24 * 60 * 60 * 1000 / 1000) →
      ∃ s', seekC δ s t = some s' ∧ s'.isPlaying = true ∧
        s'.currentTime = some (t + δ * s.speed * 24 * 60 * 60 * 1000 / 1000)) := by
  refine ⟨?_, ?_, ?_⟩
  · intro hp
    refine ⟨seekBase s t, seekC_of_not_playing δ s t hp,
      seekBase_isPlaying s t, seekBase_currentTime s t, ?_, ?_⟩
    · intro i
      rw [seekBase_activePolylines, mapHas_foldl_renderStep_iff]
      simp [mapHas]
    · intro a ha hd hc
      rw [seekBase_activePolylines]
      obtain ⟨l1, l2, hsplit⟩ := List.append_of_mem ha
      rw [hsplit] at hnd ⊢
      have hl2 : ∀ x ∈ l2, x.id ≠ a.id := by
        rw [List.map_append, List.map_cons, List.nodup_append] at hnd
        have hcons := hnd.2.1
        rw [List.nodup_cons] at hcons
        intro x hx hexq
        exact hcons.1 (List.mem_map.mpr ⟨x, hx, hexq⟩)
      rw [List.foldl_append, List.foldl_cons]
      rw [mapLookup_foldl_renderStep_of_absent _ _ _ _ l2 _ _ hl2]
      simp only [renderStep]
      rw [if_pos hd, if_neg hc]
      exact mapLookup_mapSet_self _ _ _
  · intro et hp het hlt
    obtain ⟨u, hu, hup, huc⟩ := playC_paused_clamp δ (seekBase s t) t et
      (seekBase_isPlaying s t) (seekBase_currentTime s t)
      (by rw [seekBase_endTime, het]) (by exact hlt)
    refine ⟨u, ?_, hup, huc⟩
    simp only [seekC]
    rw [if_pos hp]
    exact hu
  · intro et hp het hlt
    obtain ⟨u, hu, hup, huc⟩ := playC_paused_within δ (seekBase s t) t et
      (seekBase_isPlaying s t) (seekBase_currentTime s t)
      (by rw [seekBase_endTime, het]) (by exact hlt)
    refine ⟨u, ?_, hup, ?_⟩
    · simp only [seekC]
      rw [if_pos hp]
      exact hu
    · exact huc

set_option maxRecDepth 20000 in
/-- C3 witness: seeking a playing one-activity controller past its end
time through `seek_spec` — the resumed playback's first tick clamps to
`endTime` and pauses. -/
theorem seek_spec_witness :
    ∃ s', seekC 0 ((playC 0 (seekBase (mkController
        [⟨1, "Run", 0, 1000, some "AA"⟩] 0.5) 0)).getD
        (mkController [⟨1, "Run", 0, 1000, some "AA"⟩] 0.5)) 7 = some s' ∧
      s'.isPlaying = false ∧ s'.currentTime = some 0 :=
  (seek_spec 0 ((playC 0 (seekBase (mkController
      [⟨1, "Run", 0, 1000, some "AA"⟩] 0.5) 0)).getD
      (mkController [⟨1, "Run", 0, 1000, some "AA"⟩] 0.5)) 7
    (by with_unfolding_all decide)).2.1 0
    (by with_unfolding_all decide) (by with_unfolding_all decide)
    (by with_unfolding_all decide)

/-! ## Claim C7 -/

theorem mapHas_addActivity (s : ControllerState) (ct : ℚ) (a : Activity) (i : ℕ)
    (h : mapHas s.activePolylines i = true) :
    mapHas (addActivity s ct a).activePolylines i = true := by
  simp only [addActivity]
  by_cases hc : activityCoords a = []
  · rw [if_pos hc]; exact h
  · rw [if_neg hc]
    exact (mapHas_mapSet _ _ _ _).mpr (Or.inl h)

theorem mapHas_updateFold (ct : ℚ) (l : List Activity) (s : ControllerState) (i : ℕ)
    (h : mapHas s.activePolylines i = true) :
    mapHas ((l.foldl (fun st a =>
      if a.start_date ≤ ct ∧ ¬ mapHas st.activePolylines a.id then addActivity st ct a
      else st) s)).activePolylines i = true := by
  induction l generalizing s with
  | nil => exact h
  | cons a rest ih =>
    rw [List.foldl_cons]
    by_cases hcond : a.start_date ≤ ct ∧ ¬ mapHas s.activePolylines a.id = true
    · rw [if_pos hcond]
      exact ih _ (mapHas_addActivity s ct a i h)
    · rw [if_neg hcond]
      exact ih _ h

theorem mapHas_map_keys_of (m : List (ℕ × PolyEntry)) (F : ℕ × PolyEntry → ℕ × PolyEntry)
    (hf : ∀ kv, (F kv).1 = kv.1) (i : ℕ) (h : mapHas m i = true) :
    mapHas (m.map F) i = true := by
  rw [mapHas_map_keys m F hf i]
  exact h

theorem mapHas_updateVisible (s : ControllerState) (ct : ℚ) (i : ℕ)
    (h : mapHas s.activePolylines i = true) :
    mapHas (updateVisibleActivities s ct).activePolylines i = true := by
  simp only [updateVisibleActivities]
  refine mapHas_map_keys_of _ _ (fun kv => ?_) i
    (mapHas_updateFold ct s.sortedActivities s i h)
  rfl

theorem tick_mono (δ : ℚ) (s s2 : ControllerState)
    (h : tick δ s = some s2) (i : ℕ)
    (hmem : mapHas s.activePolylines i = true) :
    mapHas s2.activePolylines i = true := by
  unfold tick at h
  by_cases hp : s.isPlaying = false
  · rw [if_pos hp] at h
    cases h
    exact hmem
  · rw [if_neg hp] at h
    cases hct : s.currentTime with
    | none => rw [hct] at h; cases het : s.endTime <;> rw [het] at h <;> cases h
    | some ct =>
      cases het : s.endTime with
      | none => rw [hct, het] at h; cases h
      | some et =>
        rw [hct, het] at h
        dsimp only at h
        by_cases hlt : et < ct + δ * s.speed * 24 * 60 * 60 * 1000 / 1000
        · rw [if_pos hlt] at h
          cases h
          exact mapHas_foldl_renderStep _ _ _ _ _ _ _ hmem
        · rw [if_neg hlt] at h
          cases h
          exact mapHas_updateVisible _ _ _ hmem

/-- C7: during uninterrupted forward playback (any sequence of `_animate`
ticks, with no `reset()` and no `seek()`), the set of materialised routes
only grows: every route present before a tick sequence is still present
after it. -/
theorem playback_monotone (deltas : List ℚ) (s s2 : ControllerState)
    (h : runTicks deltas s = some s2) (i : ℕ)
    (hmem : mapHas s.activePolylines i = true) :
    mapHas s2.activePolylines i = true := by
  induction deltas generalizing s with
  | nil =>
    have h2 : some s = some s2 := h
    cases h2
    exact hmem
  | cons d ds ih =>
    have h2 : (tick d s).bind (fun s1 => runTicks ds s1) = some s2 := h
    cases htick : tick d s with
    | none => rw [htick] at h2; simp at h2
    | some s1 =>
      rw [htick] at h2
      have h3 : runTicks ds s1 = some s2 := h2
      exact ih s1 h3 (tick_mono d s s1 htick i hmem)

set_option maxRecDepth 20000 in
/-- C7 witness: a playing one-activity controller keeps its materialised
route across a concrete tick, through `playback_monotone`. -/
theorem playback_monotone_witness :
    mapHas ((runTicks [1000]
        ((playC 0 (seekBase (mkController [⟨1, "Run", 0, 1000, some "AA"⟩] 0.5) 0)).getD
          (mkController [⟨1, "Run", 0, 1000, some "AA"⟩] 0.5))).getD
        ((playC 0 (seekBase (mkController [⟨1, "Run", 0, 1000, some "AA"⟩] 0.5) 0)).getD
          (mkController [⟨1, "Run", 0, 1000, some "AA"⟩] 0.5))).activePolylines
      1 = true :=
  playback_monotone [1000]
    ((playC 0 (seekBase (mkController [⟨1, "Run", 0, 1000, some "AA"⟩] 0.5) 0)).getD
      (mkController [⟨1, "Run", 0, 1000, some "AA"⟩] 0.5)) _
    (by with_unfolding_all rfl) 1 (by with_unfolding_all decide)

/-! ## Claim C1 -/

set_option maxRecDepth 100000 in
/-- C1: with at least one activity-bearing day in range, the sequencer
captures `frameCount = ⌊duration × fps⌋` animation frames, mapping frame
index `i` to the activity day of index
`⌊i/(frameCount−1) × numDays⌋` clamped to the last day; in the
two-activity scenario (`duration = 2`, `fps = 5`) frames 0–4 map to the
first day, frames 5–9 to the second day, and the trailing coverage frame
makes 11 frames in total. -/
theorem frameTimes_spec :
    (∀ (startDate endDate duration fps : ℚ) (acts : List Activity),
      getActivityDatesInRange acts startDate endDate ≠ [] →
      2 ≤ ⌊duration * fps⌋.toNat →
      (calculateFrameTimes startDate endDate ⌊duration * fps⌋.toNat
          (getActivityDatesInRange acts startDate endDate)).length
        = ⌊duration * fps⌋.toNat ∧
      (∀ i < ⌊duration * fps⌋.toNat,
        (calculateFrameTimes startDate endDate ⌊duration * fps⌋.toNat
            (getActivityDatesInRange acts startDate endDate)).getD i 0
          = (getActivityDatesInRange acts startDate endDate).getD
              (min (⌊((i : ℚ) / ((⌊duration * fps⌋.toNat : ℚ) - 1))
                  * ((getActivityDatesInRange acts startDate endDate).length : ℚ)⌋.toNat)
                ((getActivityDatesInRange acts startDate endDate).length - 1)) 0)) ∧
    (runExport false (mkController [⟨1, "Run", 1704067200000, 5000, some "AA"⟩,
        ⟨2, "Ride", 1704844800000, 10000, some "AAAA"⟩] 0.5)
        1704067200000 1704844800000 2 5 true none true true 0).1 = Except.ok 11 ∧
    calculateFrameTimes 1704067200000 1704844800000 10
        (getActivityDatesInRange [⟨1, "Run", 1704067200000, 5000, some "AA"⟩,
          ⟨2, "Ride", 1704844800000, 10000, some "AAAA"⟩] 1704067200000 1704844800000)
      = [1704153599999, 1704153599999, 1704153599999, 1704153599999, 1704153599999,
         1704931199999, 1704931199999, 1704931199999, 1704931199999, 1704931199999] := by
  refine ⟨?_, ?_, ?_⟩
  · intro sd ed du fp acts hne hfc
    set dates := getActivityDatesInRange acts sd ed with hdates
    set fc := ⌊du * fp⌋.toNat with hfc2
    constructor
    · unfold calculateFrameTimes
      rw [if_neg hne, List.length_map, List.length_range]
    · intro i hi
      unfold calculateFrameTimes
      rw [if_neg hne]
      have hget : ((List.range fc).map (fun i : ℕ =>
          let denom : ℚ := if fc - 1 = 0 then 1 else ((fc - 1 : ℕ) : ℚ)
          let progress : ℚ := (i : ℚ) / denom
          let dateIndex := min (⌊progress * (dates.length : ℚ)⌋.toNat) (dates.length - 1)
          dates.getD dateIndex 0)).getD i 0
          = (let denom : ℚ := if fc - 1 = 0 then 1 else ((fc - 1 : ℕ) : ℚ)
             let progress : ℚ := (i : ℚ) / denom
             let dateIndex := min (⌊progress * (dates.length : ℚ)⌋.toNat) (dates.length - 1)
             dates.getD dateIndex 0) := by
        rw [List.getD_eq_getElem?_getD, List.getElem?_map, List.getElem?_range hi]
        rfl
      rw [hget]
      have hdenom : (if fc - 1 = 0 then (1 : ℚ) else ((fc - 1 : ℕ) : ℚ)) = (fc : ℚ) - 1 := by
        rw [if_neg (by omega)]
        push_cast [Nat.cast_sub (by omega : 1 ≤ fc)]
        ring
      simp only [hdenom]
  · with_unfolding_all rfl
  · with_unfolding_all rfl

set_option maxRecDepth 100000 in
/-- C1 witness: the frame-to-day mapping formula evaluated at frame 7 of
the two-activity scenario through `frameTimes_spec`. -/
theorem frameTimes_spec_witness :
    (calculateFrameTimes 1704067200000 1704844800000 ⌊(2 : ℚ) * 5⌋.toNat
        (getActivityDatesInRange [⟨1, "Run", 1704067200000, 5000, some "AA"⟩,
          ⟨2, "Ride", 1704844800000, 10000, some "AAAA"⟩]
          1704067200000 1704844800000)).getD 7 0
      = (getActivityDatesInRange [⟨1, "Run", 1704067200000, 5000, some "AA"⟩,
          ⟨2, "Ride", 1704844800000, 10000, some "AAAA"⟩]
          1704067200000 1704844800000).getD
          (min (⌊((7 : ℚ) / ((⌊(2 : ℚ) * 5⌋.toNat : ℚ) - 1))
              * (((getActivityDatesInRange [⟨1, "Run", 1704067200000, 5000, some "AA"⟩,
                  ⟨2, "Ride", 1704844800000, 10000, some "AAAA"⟩]
                  1704067200000 1704844800000).length : ℚ))⌋.toNat)
            ((getActivityDatesInRange [⟨1, "Run", 1704067200000, 5000, some "AA"⟩,
                ⟨2, "Ride", 1704844800000, 10000, some "AAAA"⟩]
                1704067200000 1704844800000).length - 1)) 0 :=
  (frameTimes_spec.1 1704067200000 1704844800000 2 5
      [⟨1, "Run", 1704067200000, 5000, some "AA"⟩,
       ⟨2, "Ride", 1704844800000, 10000, some "AAAA"⟩]
      (by with_unfolding_all decide) (by with_unfolding_all decide)).2 7
    (by with_unfolding_all decide)

/-! ## Claim C2 -/

/-- C2 counterexample: for a playing controller, a base-map capture
failure rejects the export and resets the exporting flag, but leaves the
controller paused — the pre-export play state is not restored, so the
live animation state is not left exactly as it was. -/
theorem export_restore_cex :
    (∃ e, (runExport false
        ((playC 0 (mkController [⟨1, "Run", 0, 1000, some "AA"⟩] 0.5)).getD
          (mkController [⟨1, "Run", 0, 1000, some "AA"⟩] 0.5))
        0 0 1 1 false none true true 0).1 = Except.error e) ∧
    (runExport false
        ((playC 0 (mkController [⟨1, "Run", 0, 1000, some "AA"⟩] 0.5)).getD
          (mkController [⟨1, "Run", 0, 1000, some "AA"⟩] 0.5))
        0 0 1 1 false none true true 0).2.2.isPlaying = false ∧
    ((playC 0 (mkController [⟨1, "Run", 0, 1000, some "AA"⟩] 0.5)).getD
        (mkController [⟨1, "Run", 0, 1000, some "AA"⟩] 0.5)).isPlaying = true := by
  refine ⟨⟨"basemap capture failed", ?_⟩, ?_, ?_⟩ <;> with_unfolding_all rfl

/-- C2 (amended): on any capture- or encode-stage failure the export
promise rejects with the error and the exporting flag is reset to
not-exporting; the live animation state (`currentTime` and the play/pause
state) is restored only when the failure occurs in the encoding stage
(after the in-`try` restore has run) — capture-stage failures leave the
controller paused at the last sought frame time.  For a previously
playing controller the restore ends in `play()`, whose synchronous first
tick advances the clock once more, so exact restoration holds at zero
first-frame delay with the pre-export time inside the playback range
(`currentTime ≤ endTime`). -/
theorem export_failure_spec (s : ControllerState) (ct : ℚ)
    (sd ed du fp : ℚ) (bo ho eo : Bool) (ff : Option ℕ)
    (hct : s.currentTime = some ct)
    (hplay : s.isPlaying = true → ∃ et, s.endTime = some et ∧ ct ≤ et)
    (hfail : bo = false ∨
      (firstFrameFail ff (calculateFrameTimes sd ed ⌊du * fp⌋.toNat
          (getActivityDatesInRange s.activities sd ed)).length).isSome = true ∨
      ho = false ∨ eo = false) :
    (∃ e, (runExport false s sd ed du fp bo ff ho eo 0).1 = Except.error e) ∧
    (runExport false s sd ed du fp bo ff ho eo 0).2.1 = false ∧
    ((bo = true ∧
        firstFrameFail ff (calculateFrameTimes sd ed ⌊du * fp⌋.toNat
          (getActivityDatesInRange s.activities sd ed)).length = none ∧
        ho = true ∧ eo = false) →
      (runExport false s sd ed du fp bo ff ho eo 0).2.2.currentTime = some ct ∧
      (runExport false s sd ed du fp bo ff ho eo 0).2.2.isPlaying = s.isPlaying) := by
  unfold runExport
  rw [if_neg (by simp)]
  cases bo with
  | false =>
    refine ⟨⟨"basemap capture failed", rfl⟩, rfl, ?_⟩
    rintro ⟨hbo, -, -, -⟩
    exact absurd hbo (by simp)
  | true =>
    rw [if_neg (by simp)]
    cases hffq : firstFrameFail ff (calculateFrameTimes sd ed ⌊du * fp⌋.toNat
        (getActivityDatesInRange s.activities sd ed)).length with
    | some j =>
      refine ⟨⟨"frame capture failed", rfl⟩, rfl, ?_⟩
      rintro ⟨-, hnone, -, -⟩
      cases hnone
    | none =>
      cases ho with
      | false =>
        refine ⟨⟨"heatmap capture failed", rfl⟩, rfl, ?_⟩
        rintro ⟨-, -, hho, -⟩
        exact absurd hho (by simp)
      | true =>
        cases eo with
        | false =>
          dsimp only
          rw [if_neg (show ¬ (true = false) by simp)]
          cases hsp : s.isPlaying with
          | false =>
            rw [if_neg (by simp)]
            dsimp only
            rw [if_pos (rfl : false = false)]
            refine ⟨⟨"encode failed", rfl⟩, rfl, ?_⟩
            rintro -
            constructor
            · rw [seekBase_currentTime, hct]
              rfl
            · exact seekBase_isPlaying _ _
          | true =>
            obtain ⟨et, het, hle⟩ := hplay hsp
            rw [if_pos (rfl : true = true)]
            set s3 := seekBase (seekAll (pauseC s)
              (calculateFrameTimes sd ed ⌊du * fp⌋.toNat
                (getActivityDatesInRange s.activities sd ed)))
              (s.currentTime.getD 0) with hs3
            have hct3 : s3.currentTime = some ct := by
              rw [hs3, seekBase_currentTime, hct]
              rfl
            have het3 : s3.endTime = some et := by
              rw [hs3, seekBase_endTime, seekAll_endTime]
              exact het
            have hz : (0 : ℚ) * s3.speed * 24 * 60 * 60 * 1000 / 1000 = 0 := by ring
            have hlt : ¬ (et < ct + 0 * s3.speed * 24 * 60 * 60 * 1000 / 1000) := by
              rw [hz, add_zero]
              exact not_lt.mpr hle
            obtain ⟨u, hu, hup, huc⟩ := playC_paused_within 0 s3 ct et
              (by rw [hs3]; exact seekBase_isPlaying _ _) hct3 het3 hlt
            rw [hu]
            dsimp only
            rw [if_pos (rfl : false = false)]
            refine ⟨⟨"encode failed", rfl⟩, rfl, ?_⟩
            rintro -
            constructor
            · rw [huc, hz, add_zero]
            · rw [hup]
        | true =>
          rcases hfail with h | h | h | h
          · exact absurd h (by simp)
          · rw [hffq] at h
            exact absurd h (by simp)
          · exact absurd h (by simp)
          · exact absurd h (by simp)

/-- C2 witness: an encoding-stage failure on a paused one-activity
controller rejects, resets the flag, and restores the clock and play
state, through `export_failure_spec`. -/
theorem export_failure_spec_witness :
    (∃ e, (runExport false (mkController [⟨1, "Run", 0, 1000, some "AA"⟩] 0.5)
        0 0 1 1 true none true false 0).1 = Except.error e) ∧
    (runExport false (mkController [⟨1, "Run", 0, 1000, some "AA"⟩] 0.5)
        0 0 1 1 true none true false 0).2.1 = false ∧
    ((runExport false (mkController [⟨1, "Run", 0, 1000, some "AA"⟩] 0.5)
        0 0 1 1 true none true false 0).2.2.currentTime = some 0 ∧
      (runExport false (mkController [⟨1, "Run", 0, 1000, some "AA"⟩] 0.5)
        0 0 1 1 true none true false 0).2.2.isPlaying
        = (mkController [⟨1, "Run", 0, 1000, some "AA"⟩] 0.5).isPlaying) := by
  have h := export_failure_spec (mkController [⟨1, "Run", 0, 1000, some "AA"⟩] 0.5) 0
    0 0 1 1 true true false none (by with_unfolding_all rfl)
    (by intro hcontra; exact absurd hcontra (by with_unfolding_all decide))
    (Or.inr (Or.inr (Or.inr rfl)))
  exact ⟨h.1, h.2.1, h.2.2 ⟨rfl, by with_unfolding_all rfl, rfl, rfl⟩⟩

end StravaMap
